import Mathlib

set_option maxRecDepth 100000

/-!
Shallow embedding of the Retro-iPod click-wheel navigation engine
(`src/App.tsx`, `src/types.ts`) and proofs about its claims.

JavaScript numbers that can become NaN (the selection index, which the code
computes with `%` on a possibly-zero list length) are modelled by `JSNum`;
`%` on numbers is truncated remainder (`Int.tmod`), and `x % 0` is NaN.
External collaborators (the YouTube id resolver, `Math.random`, the player
current time) are threaded in as an `Env` parameter.  React `useState`
updates inside one event handler are applied sequentially; reads of the
render-scope identifiers (`playlists`, `tempSong`, ...) read the pre-event
snapshot exactly where the source does.
-/

/-- JavaScript number restricted to the values the selection index can take:
an integer or NaN. -/
inductive JSNum where
  | num : Int → JSNum
  | nan : JSNum
deriving Repr, DecidableEq

/-- JavaScript addition on `JSNum` (NaN propagates). -/
def jsAdd (a : JSNum) (b : Int) : JSNum :=
  match a with
  | .num v => .num (v + b)
  | .nan => .nan

/-- JavaScript `%` on `JSNum`: truncated remainder; division by zero is NaN. -/
def jsMod (a : JSNum) (n : Nat) : JSNum :=
  match a with
  | .nan => .nan
  | .num v => if n = 0 then .nan else .num (Int.tmod v (n : Int))

/-- JavaScript array indexing `l[i]` for a `JSNum` index: `undefined`
(modelled `none`) for NaN, negative or out-of-range indices. -/
def jsGet (l : List α) (i : JSNum) : Option α :=
  match i with
  | .nan => none
  | .num v => if 0 ≤ v then l[v.toNat]? else none

/-- JavaScript strict equality of a `JSNum` with an integer literal. -/
def jsEq (a : JSNum) (b : Int) : Bool :=
  match a with
  | .num v => v == b
  | .nan => false

/-- Song from `src/types.ts`: `{ id: string; title: string }`. -/
structure Song where
  id : String
  title : String
deriving Repr, DecidableEq

/-- Playlist from `src/types.ts`: `{ id: string; name: string; songs: Song[] }`. -/
structure Playlist where
  id : String
  name : String
  songs : List Song
deriving Repr, DecidableEq

/-- View from `src/types.ts`. -/
inductive View where
  | mainMenu
  | playlists
  | playlistView
  | addSong
  | nowPlaying
  | selectPlaylistForSong
  | createPlaylistInput
  | songMenu
  | deleteSongConfirm
  | deletePlaylistConfirm
  | shuffleConfirm
  | editSongTitle
deriving Repr, DecidableEq

/-- PlaybackMode from `src/types.ts`. -/
inductive PlaybackMode where
  | audio
  | video
deriving Repr, DecidableEq

/-- RepeatMode from `src/types.ts`. -/
inductive RepeatMode where
  | off
  | one
  | all
deriving Repr, DecidableEq

/-- The `nowPlaying` pointer: `{ playlistId: string; songIndex: number }`. -/
structure NowPlayingRef where
  playlistId : String
  songIndex : Int
deriving Repr, DecidableEq

/-- The `App` component state: one field per `useState` hook of `App.tsx`,
plus `playerBound`/`playerReady` for `ytPlayer.current`/`isPlayerReady`
refs and `now` for the wall clock read by `Date.now()` (incremented once
per handled event to model time passing). -/
structure AppState where
  playlists : List Playlist
  view : View
  activePlaylistId : Option String
  nowPlaying : Option NowPlayingRef
  playbackMode : PlaybackMode
  repeatMode : RepeatMode
  isPlaying : Bool
  selectedIndex : JSNum
  urlInput : String
  tempSong : Option Song
  newPlaylistName : String
  draggedItemIndex : Option Int
  dragOverIndex : Option Int
  selectedSongIndex : Option Nat
  playlistToDeleteId : Option String
  playlistSearchQuery : String
  playerBound : Bool
  playerReady : Bool
  now : Nat
deriving Repr, DecidableEq

/-- External collaborators of the engine. -/
structure Env where
  /-- `getYouTubeId` from the youtubeService module (not part of the core):
  maps free-form text to a media identifier or fails. -/
  resolve : String → Option String
  /-- One call of `Math.floor(Math.random() * (i + 1))` per Fisher-Yates
  iteration, keyed by the loop variable `i`; the real value always lies in
  `[0, i]`, but no proof below needs that bound. -/
  rand : Nat → Nat
  /-- `ytPlayer.current.getCurrentTime()`. -/
  playerTime : Int

/-- Decides whether `pat` occurs at the front of `l` (character list form of
JavaScript `String.startsWith`). -/
def charsLeadWith : List Char → List Char → Bool
  | [], _ => true
  | _ :: _, [] => false
  | p :: ps, c :: cs => p == c && charsLeadWith ps cs

/-- Decides whether `pat` occurs somewhere in `l`. -/
def charsContain (pat : List Char) : List Char → Bool
  | [] => charsLeadWith pat []
  | c :: cs => charsLeadWith pat (c :: cs) || charsContain pat cs

/-- JavaScript `hay.includes(pat)` on strings. -/
def strIncludes (hay pat : String) : Bool :=
  charsContain pat.toList hay.toList

/-- ASCII lower-casing of one character (the case JavaScript
`toLowerCase` performs on the ASCII names and queries this program
manipulates). -/
def jsCharLower (c : Char) : Char :=
  if 'A' ≤ c ∧ c ≤ 'Z' then Char.ofNat (c.toNat + 32) else c

/-- JavaScript `String.prototype.toLowerCase` (ASCII range). -/
def jsToLower (s : String) : String :=
  (s.toList.map jsCharLower).asString

/-- JavaScript `String.prototype.trim`: strip whitespace from both ends. -/
def jsTrim (s : String) : String :=
  (((s.toList.dropWhile Char.isWhitespace).reverse.dropWhile Char.isWhitespace).reverse).asString

/-- `menuItems` of `App.tsx`. -/
def menuItems : List String := ["Playlists", "Add YouTube URL", "Now Playing"]

/-- `nowPlayingMenuItems` of `App.tsx`. -/
def nowPlayingMenuItems : List String :=
  ["prev", "play-pause", "next", "playback-mode", "repeat-mode"]

/-- `playlistItems` of `App.tsx`: the playlist collection filtered by the
case-insensitive substring search (an empty query, which is falsy, skips
the filter). -/
def playlistItems (s : AppState) : List Playlist :=
  if s.playlistSearchQuery ≠ "" then
    s.playlists.filter fun p =>
      strIncludes (jsToLower p.name) (jsToLower s.playlistSearchQuery)
  else s.playlists

/-- The synthetic `{id: 'CREATE_NEW', ...}` entry appended in `playlistMenuItems`. -/
def createNewEntry : Playlist := ⟨"CREATE_NEW", "+ Create New Playlist", []⟩

/-- `playlistMenuItems` of `App.tsx`. -/
def playlistMenuItems (s : AppState) : List Playlist :=
  playlistItems s ++ [createNewEntry]

/-- `activePlaylist` of `App.tsx`: `playlists.find(p => p.id === activePlaylistId)`. -/
def activePlaylist (s : AppState) : Option Playlist :=
  match s.activePlaylistId with
  | some pid => s.playlists.find? fun p => p.id == pid
  | none => none

/-- An entry of the playlist-contents item list (`{id, title}`). -/
structure ViewItem where
  id : String
  title : String
deriving Repr, DecidableEq

/-- `getPlaylistViewItems` of `App.tsx`. -/
def getPlaylistViewItems (s : AppState) : List ViewItem :=
  match activePlaylist s with
  | none => []
  | some ap =>
    (if 0 < ap.songs.length then
      ⟨"SHUFFLE_PLAYLIST", "Shuffle Playlist"⟩ ::
        ap.songs.map (fun sg => ⟨sg.id, sg.title⟩)
    else []) ++ [⟨"DELETE_PLAYLIST", "Delete This Playlist"⟩]

/-- The item list of the select-playlist-for-song view:
`[...playlists, {id: 'new', name: 'Create New Playlist', songs: []}]`. -/
def selectPlaylistForSongItems (s : AppState) : List Playlist :=
  s.playlists ++ [⟨"new", "Create New Playlist", []⟩]

/-- `currentSong` of `App.tsx`:
`nowPlaying ? playlists.find(p => p.id === nowPlaying.playlistId)?.songs[nowPlaying.songIndex] : null`.
A JavaScript out-of-range or negative index reads `undefined`, modelled `none`. -/
def currentSong (s : AppState) : Option Song :=
  match s.nowPlaying with
  | none => none
  | some np =>
    match s.playlists.find? (fun p => p.id == np.playlistId) with
    | none => none
    | some p => if 0 ≤ np.songIndex then p.songs[np.songIndex.toNat]? else none

/-- Length of the derived item list the `handleNext`/`handlePrev` switch
navigates for each view; views without a navigable item list (the two text
input views and `edit-song-title`) have no items. -/
def viewItemsLength (s : AppState) : Nat :=
  match s.view with
  | .mainMenu => menuItems.length
  | .playlists => (playlistMenuItems s).length
  | .playlistView => (getPlaylistViewItems s).length
  | .selectPlaylistForSong => (selectPlaylistForSongItems s).length
  | .songMenu => (["Play"] : List String).length
  | .deleteSongConfirm => (["No", "Yes"] : List String).length
  | .deletePlaylistConfirm => (["No", "Yes"] : List String).length
  | .shuffleConfirm => (["No", "Yes"] : List String).length
  | .nowPlaying => nowPlayingMenuItems.length
  | _ => 0

/-- Direction argument of `navigate`. -/
inductive Direction where
  | next
  | prev
deriving Repr, DecidableEq

/-- `navigate` of `App.tsx`:
next maps the index to `(prev + 1) % items.length`, prev to
`(prev - 1 + items.length) % items.length`; there is no special case for an
empty item list, so `% 0` yields NaN. -/
def navigate (items : List α) (d : Direction) (prev : JSNum) : JSNum :=
  match d with
  | .next => jsMod (jsAdd prev 1) items.length
  | .prev => jsMod (jsAdd (jsAdd prev (-1)) items.length) items.length

/-- `handleNext` of `App.tsx` (the scroll sound and vibration are pure
side effects outside the state). -/
def handleNext (s : AppState) : AppState :=
  match s.view with
  | .mainMenu => { s with selectedIndex := navigate menuItems .next s.selectedIndex }
  | .playlists => { s with selectedIndex := navigate (playlistMenuItems s) .next s.selectedIndex }
  | .playlistView => { s with selectedIndex := navigate (getPlaylistViewItems s) .next s.selectedIndex }
  | .selectPlaylistForSong => { s with selectedIndex := navigate (selectPlaylistForSongItems s) .next s.selectedIndex }
  | .songMenu => { s with selectedIndex := navigate (["Play"] : List String) .next s.selectedIndex }
  | .deleteSongConfirm => { s with selectedIndex := navigate (["No", "Yes"] : List String) .next s.selectedIndex }
  | .deletePlaylistConfirm => { s with selectedIndex := navigate (["No", "Yes"] : List String) .next s.selectedIndex }
  | .shuffleConfirm => { s with selectedIndex := navigate (["No", "Yes"] : List String) .next s.selectedIndex }
  | .nowPlaying => { s with selectedIndex := navigate nowPlayingMenuItems .next s.selectedIndex }
  | _ => s

/-- `handlePrev` of `App.tsx`. -/
def handlePrev (s : AppState) : AppState :=
  match s.view with
  | .mainMenu => { s with selectedIndex := navigate menuItems .prev s.selectedIndex }
  | .playlists => { s with selectedIndex := navigate (playlistMenuItems s) .prev s.selectedIndex }
  | .playlistView => { s with selectedIndex := navigate (getPlaylistViewItems s) .prev s.selectedIndex }
  | .selectPlaylistForSong => { s with selectedIndex := navigate (selectPlaylistForSongItems s) .prev s.selectedIndex }
  | .songMenu => { s with selectedIndex := navigate (["Play"] : List String) .prev s.selectedIndex }
  | .deleteSongConfirm => { s with selectedIndex := navigate (["No", "Yes"] : List String) .prev s.selectedIndex }
  | .deletePlaylistConfirm => { s with selectedIndex := navigate (["No", "Yes"] : List String) .prev s.selectedIndex }
  | .shuffleConfirm => { s with selectedIndex := navigate (["No", "Yes"] : List String) .prev s.selectedIndex }
  | .nowPlaying => { s with selectedIndex := navigate nowPlayingMenuItems .prev s.selectedIndex }
  | _ => s

/-- `handleNextTrack` of `App.tsx`. -/
def handleNextTrack (s : AppState) : AppState :=
  match s.nowPlaying with
  | none => s
  | some np =>
    match s.playlists.find? (fun p => p.id == np.playlistId) with
    | none => s
    | some p =>
      let nextIndex := np.songIndex + 1
      if nextIndex < (p.songs.length : Int) then
        { s with nowPlaying := some { np with songIndex := nextIndex } }
      else if s.repeatMode = .all then
        { s with nowPlaying := some { np with songIndex := 0 } }
      else s

/-- `handlePrevTrack` of `App.tsx`; `seekTo(0)` only touches the external
player, so those branches leave the state unchanged. -/
def handlePrevTrack (env : Env) (s : AppState) : AppState :=
  match s.nowPlaying with
  | none => s
  | some np =>
    let playerTime := if s.playerBound then env.playerTime else 0
    if 3 < playerTime then s
    else if 0 < np.songIndex then
      { s with nowPlaying := some { np with songIndex := np.songIndex - 1 } }
    else
      match s.playlists.find? (fun p => p.id == np.playlistId) with
      | some p =>
        if s.repeatMode = .all ∧ 0 < p.songs.length then
          { s with nowPlaying := some { np with songIndex := (p.songs.length : Int) - 1 } }
        else s
      | none => s

/-- `handleSongEnd` of `App.tsx` (the `onTrackEnded` handler); in repeat-one
mode `seekTo(0)`/`playVideo()` only drive the external player. -/
def handleSongEnd (s : AppState) : AppState :=
  match s.nowPlaying with
  | none => s
  | some np =>
    match s.playlists.find? (fun p => p.id == np.playlistId) with
    | none => { s with isPlaying := false }
    | some p =>
      if p.songs.length = 0 then { s with isPlaying := false }
      else if s.repeatMode = .one then s
      else
        let nextIndex := np.songIndex + 1
        if s.repeatMode = .all then
          { s with nowPlaying := some { np with songIndex := Int.tmod nextIndex (p.songs.length : Int) } }
        else if nextIndex < (p.songs.length : Int) then
          { s with nowPlaying := some { np with songIndex := nextIndex } }
        else { s with isPlaying := false }

/-- `handleMenu` of `App.tsx`. -/
def handleMenu (s : AppState) : AppState :=
  let s := { s with selectedIndex := .num 0 }
  match s.view with
  | .playlists => { s with view := .mainMenu, playlistSearchQuery := "" }
  | .playlistView => { s with view := .playlists, activePlaylistId := none }
  | .addSong =>
    let s := if 0 < s.playlists.length then { s with view := .mainMenu } else s
    { s with urlInput := "" }
  | .nowPlaying =>
    { s with view := if s.activePlaylistId.isSome then .playlistView else .mainMenu }
  | .selectPlaylistForSong => { s with view := .addSong, tempSong := none }
  | .createPlaylistInput =>
    { s with view := if s.tempSong.isSome then .selectPlaylistForSong else .playlists,
             newPlaylistName := "" }
  | .songMenu => { s with view := .playlistView, selectedSongIndex := none }
  | .deleteSongConfirm => { s with view := .songMenu }
  | .deletePlaylistConfirm => { s with view := .playlistView, playlistToDeleteId := none }
  | .shuffleConfirm => { s with view := .playlistView }
  | _ =>
    if 0 < s.playlists.length ∧ s.view ≠ .mainMenu then { s with view := .mainMenu } else s

/-- `handlePlayPause` of `App.tsx`; when the external player is bound and
ready the toggle goes to the player and the state is untouched (state
changes come back through player events). -/
def handlePlayPause (s : AppState) : AppState :=
  if s.playerBound ∧ s.playerReady then s
  else if (currentSong s).isSome then { s with isPlaying := !s.isPlaying }
  else
    match s.playlists with
    | p0 :: _ =>
      if 0 < p0.songs.length then
        { s with nowPlaying := some ⟨p0.id, 0⟩, view := .nowPlaying }
      else s
    | [] => s

/-- `addSongToPlaylist` of `App.tsx`.  The final `setSelectedIndex` reads the
render-scope `playlists` (the pre-append collection), so it stores the
appended-to playlist's length from before the append (`|| 0` when the
playlist is not found). -/
def addSongToPlaylist (playlistId : String) (song : Song) (s : AppState) : AppState :=
  { s with
    playlists := s.playlists.map fun p =>
      if p.id == playlistId then { p with songs := p.songs ++ [song] } else p,
    tempSong := none,
    activePlaylistId := some playlistId,
    view := .playlistView,
    selectedIndex := .num
      (((s.playlists.find? (fun p => p.id == playlistId)).map
        (fun p => (p.songs.length : Int))).getD 0) }

/-- Lexicographic order on character lists by code point. -/
def charListLe : List Char → List Char → Bool
  | [], _ => true
  | _ :: _, [] => false
  | a :: as, b :: bs =>
    if a.toNat < b.toNat then true
    else if b.toNat < a.toNat then false
    else charListLe as bs

/-- Comparator of `handleCreatePlaylist`:
`a.name.localeCompare(b.name, undefined, { sensitivity: 'base' })` compares
names case-insensitively; for the ASCII names this program manipulates that
is the lexicographic order of the lower-cased names. -/
def nameLe (a b : Playlist) : Bool :=
  charListLe (jsToLower a.name).toList (jsToLower b.name).toList

/-- `handleCreatePlaylist` of `App.tsx`.  `Date.now().toString()` becomes
`toString s.now`; `Array.prototype.sort` with a consistent comparator is a
stable sort, modelled by the stable `List.insertionSort`.  The trailing
`if (tempSong)` reads the render-scope `tempSong`, which the queued
`setTempSong(null)` has not changed. -/
def handleCreatePlaylist (s : AppState) : AppState :=
  if jsTrim s.newPlaylistName ≠ "" then
    let newPlaylist : Playlist :=
      ⟨toString s.now, s.newPlaylistName,
        match s.tempSong with
        | some t => [t]
        | none => []⟩
    let updatedPlaylists :=
      (s.playlists ++ [newPlaylist]).insertionSort fun a b => nameLe a b
    let s1 := { s with playlists := updatedPlaylists, newPlaylistName := "", tempSong := none }
    match s.tempSong with
    | some _ =>
      { s1 with activePlaylistId := some newPlaylist.id, view := .playlistView,
                selectedIndex := .num 0 }
    | none =>
      { s1 with view := .playlists,
                selectedIndex := .num
                  (match updatedPlaylists.findIdx? (fun p => p.id == newPlaylist.id) with
                   | some k => (k : Int)
                   | none => 0) }
  else s

/-- `handleDeleteSong` of `App.tsx`: `splice(selectedSongIndex, 1)` on a copy
of the songs is `eraseIdx` (both remove nothing when the index is past the
end). -/
def handleDeleteSong (s : AppState) : AppState :=
  match s.activePlaylistId, s.selectedSongIndex with
  | some pid, some k =>
    { s with
      playlists := s.playlists.map fun p =>
        if p.id == pid then { p with songs := p.songs.eraseIdx k } else p,
      view := .playlistView,
      selectedSongIndex := none,
      selectedIndex := .num 0 }
  | _, _ => s

/-- `handleDeletePlaylist` of `App.tsx`.  Note it does not clear
`activePlaylistId`. -/
def handleDeletePlaylist (s : AppState) : AppState :=
  match s.playlistToDeleteId with
  | none => s
  | some pid =>
    { s with playlists := s.playlists.filter (fun p => p.id != pid),
             view := .playlists, playlistToDeleteId := none, selectedIndex := .num 0 }

/-- One in-place swap of positions `i` and `j` (the destructuring swap in
the Fisher-Yates loop); both indices are in range whenever the source
executes it. -/
def listSwap (l : List α) (i j : Nat) : List α :=
  match l[i]?, l[j]? with
  | some a, some b => (l.set i b).set j a
  | _, _ => l

/-- The Fisher-Yates loop of `handleShufflePlaylist`, counting `i` down from
`songsToShuffle.length - 1` to `1`, swapping `i` with `rand i`. -/
def fisherYatesAux (rand : Nat → Nat) : Nat → List α → List α
  | 0, l => l
  | i + 1, l => fisherYatesAux rand i (listSwap l (i + 1) (rand (i + 1)))

/-- The whole Fisher-Yates shuffle of `handleShufflePlaylist`. -/
def fisherYates (rand : Nat → Nat) (l : List α) : List α :=
  fisherYatesAux rand (l.length - 1) l

/-- `handleShufflePlaylist` of `App.tsx`. -/
def handleShufflePlaylist (env : Env) (s : AppState) : AppState :=
  match s.activePlaylistId with
  | none => s
  | some pid =>
    { s with
      playlists := s.playlists.map fun p =>
        if p.id == pid then { p with songs := fisherYates env.rand p.songs } else p,
      nowPlaying := some ⟨pid, 0⟩,
      view := .nowPlaying }

/-- `handleDragStart` of `App.tsx`: converts the view row index to a song
index (row 0 is the shuffle pseudo-item when the playlist has songs). -/
def handleDragStart (itemIndexInView : Int) (s : AppState) : AppState :=
  let songIndex := itemIndexInView -
    (match activePlaylist s with
     | some ap => if 0 < ap.songs.length then 1 else 0
     | none => 0)
  { s with draggedItemIndex := some songIndex }

/-- `handleDragEnter` of `App.tsx`: one incremental reorder step,
`splice(draggedItemIndex, 1)` then `splice(songIndex, 0, removed)`.
The source only ever runs it with `draggedItemIndex` denoting an existing
song (only song rows are draggable); for an out-of-range dragged index
JavaScript would splice `undefined` into the array, which is left
unmodelled (the song list is returned unchanged). -/
def handleDragEnter (itemIndexInView : Int) (s : AppState) : AppState :=
  match s.draggedItemIndex, activePlaylist s with
  | some dragged, some ap =>
    let songIndex : Int := itemIndexInView - (if 0 < ap.songs.length then 1 else 0)
    if songIndex < 0 ∨ (ap.songs.length : Int) ≤ songIndex then
      { s with dragOverIndex := none }
    else
      let s1 := { s with dragOverIndex := some songIndex }
      if dragged = songIndex then s1
      else
        match (if 0 ≤ dragged then ap.songs[dragged.toNat]? else none) with
        | some removed =>
          let newSongs := (ap.songs.eraseIdx dragged.toNat).insertIdx songIndex.toNat removed
          { s1 with
            playlists := s.playlists.map fun p =>
              if p.id == ap.id then { p with songs := newSongs } else p,
            draggedItemIndex := some songIndex }
        | none => { s1 with draggedItemIndex := some songIndex }
  | _, _ => s

/-- `handleDragEnd` of `App.tsx`. -/
def handleDragEnd (s : AppState) : AppState :=
  { s with draggedItemIndex := none, dragOverIndex := none }

/-- `handleAddSongUrl` of `App.tsx`; a failed resolution only alerts. -/
def handleAddSongUrl (env : Env) (s : AppState) : AppState :=
  match env.resolve s.urlInput with
  | some videoId =>
    { s with tempSong := some ⟨videoId, "Song: " ++ videoId⟩,
             view := .selectPlaylistForSong, urlInput := "", selectedIndex := .num 0 }
  | none => s

/-- `handleMainMenuSelection` of `App.tsx`. -/
def handleMainMenuSelection (index : JSNum) (s : AppState) : AppState :=
  let s1 := { s with selectedIndex := index }
  let selectedMenu := jsGet menuItems index
  let s2 := if selectedMenu = some "Playlists" then { s1 with view := .playlists } else s1
  let s3 := if selectedMenu = some "Add YouTube URL" then { s2 with view := .addSong } else s2
  let s4 :=
    if selectedMenu = some "Now Playing" ∧ (currentSong s).isSome then
      { s3 with view := .nowPlaying }
    else s3
  { s4 with selectedIndex := .num 0 }

/-- `handlePlaylistsSelection` of `App.tsx`.  With an out-of-range index the
source throws reading `.id` of `undefined` (before the trailing resets);
that unreachable case is modelled as keeping the queued index update only. -/
def handlePlaylistsSelection (index : JSNum) (s : AppState) : AppState :=
  let s1 := { s with selectedIndex := index }
  match jsGet (playlistMenuItems s) index with
  | none => s1
  | some item =>
    let s2 :=
      if item.id == "CREATE_NEW" then { s1 with view := .createPlaylistInput }
      else { s1 with activePlaylistId := some item.id, view := .playlistView }
    { s2 with selectedIndex := .num 0, playlistSearchQuery := "" }

/-- `handlePlaylistViewSelection` of `App.tsx`. -/
def handlePlaylistViewSelection (index : JSNum) (s : AppState) : AppState :=
  let s1 := { s with selectedIndex := index }
  match jsGet (getPlaylistViewItems s) index with
  | none => s1
  | some item =>
    let s2 :=
      if item.id == "SHUFFLE_PLAYLIST" then { s1 with view := .shuffleConfirm }
      else if item.id == "DELETE_PLAYLIST" then
        { s1 with playlistToDeleteId := s.activePlaylistId, view := .deletePlaylistConfirm }
      else
        let songIndex : Int :=
          match activePlaylist s with
          | none => -1
          | some ap =>
            match ap.songs.findIdx? (fun sg => sg.id == item.id) with
            | some k => (k : Int)
            | none => -1
        if -1 < songIndex then
          { s1 with selectedSongIndex := some songIndex.toNat, view := .songMenu }
        else s1
    { s2 with selectedIndex := .num 0 }

/-- `handleSongMenuSelection` of `App.tsx`.  The non-null assertions
`activePlaylistId!`/`selectedSongIndex!` are only reached with both set;
the null case would store null fields and is modelled as clearing the
pointer. -/
def handleSongMenuSelection (index : JSNum) (s : AppState) : AppState :=
  let s1 := { s with selectedIndex := index }
  let s2 :=
    if jsEq index 0 then
      match s.activePlaylistId, s.selectedSongIndex with
      | some pid, some k => { s1 with nowPlaying := some ⟨pid, (k : Int)⟩, view := .nowPlaying }
      | _, _ => { s1 with nowPlaying := none, view := .nowPlaying }
    else s1
  { s2 with selectedIndex := .num 0 }

/-- `handleConfirmation` of `App.tsx`. -/
def handleConfirmation (env : Env) (index : JSNum) (s : AppState) : AppState :=
  let s1 := { s with selectedIndex := index }
  if jsEq index 1 then
    match s.view with
    | .deleteSongConfirm => handleDeleteSong s1
    | .deletePlaylistConfirm => handleDeletePlaylist s1
    | .shuffleConfirm => handleShufflePlaylist env s1
    | _ => s1
  else
    let s2 :=
      match s.view with
      | .deleteSongConfirm => { s1 with view := .songMenu }
      | .deletePlaylistConfirm => { s1 with view := .playlistView, playlistToDeleteId := none }
      | .shuffleConfirm => { s1 with view := .playlistView }
      | _ => s1
    { s2 with selectedIndex := .num 0 }

/-- `handleSelectPlaylistForSongSelection` of `App.tsx`.  As in
`handlePlaylistsSelection`, an out-of-range index would throw in the
source. -/
def handleSelectPlaylistForSongSelection (index : JSNum) (s : AppState) : AppState :=
  let s1 := { s with selectedIndex := index }
  match jsGet (selectPlaylistForSongItems s) index with
  | none => s1
  | some selection =>
    if selection.id == "new" then { s1 with view := .createPlaylistInput }
    else
      match s.tempSong with
      | some t => addSongToPlaylist selection.id t s1
      | none => s1

/-- `handleNowPlayingSelection` of `App.tsx`. -/
def handleNowPlayingSelection (env : Env) (index : JSNum) (s : AppState) : AppState :=
  let s1 := { s with selectedIndex := index }
  match jsGet nowPlayingMenuItems index with
  | some "prev" => handlePrevTrack env s1
  | some "play-pause" => handlePlayPause s1
  | some "next" => handleNextTrack s1
  | some "playback-mode" =>
    { s1 with playbackMode := if s.playbackMode = .video then .audio else .video }
  | some "repeat-mode" =>
    { s1 with repeatMode :=
        match s.repeatMode with
        | .off => .all
        | .all => .one
        | .one => .off }
  | _ => s1

/-- `handleCenterLongPress` of `App.tsx`. -/
def handleCenterLongPress (s : AppState) : AppState :=
  if s.view = .playlistView then
    match activePlaylist s with
    | none => s
    | some ap =>
      match jsGet (getPlaylistViewItems s) s.selectedIndex with
      | none => s
      | some item =>
        if item.id != "SHUFFLE_PLAYLIST" && item.id != "DELETE_PLAYLIST" then
          match ap.songs.findIdx? (fun sg => sg.id == item.id) with
          | some k =>
            { s with selectedSongIndex := some k, view := .deleteSongConfirm,
                     selectedIndex := .num 0 }
          | none => s
        else s
  else s

/-- `handleCenterClick` of `App.tsx`. -/
def handleCenterClick (env : Env) (s : AppState) : AppState :=
  match s.view with
  | .mainMenu => handleMainMenuSelection s.selectedIndex s
  | .playlists => handlePlaylistsSelection s.selectedIndex s
  | .playlistView => handlePlaylistViewSelection s.selectedIndex s
  | .songMenu => handleSongMenuSelection s.selectedIndex s
  | .deleteSongConfirm => handleConfirmation env s.selectedIndex s
  | .deletePlaylistConfirm => handleConfirmation env s.selectedIndex s
  | .shuffleConfirm => handleConfirmation env s.selectedIndex s
  | .addSong => handleAddSongUrl env s
  | .selectPlaylistForSong => handleSelectPlaylistForSongSelection s.selectedIndex s
  | .createPlaylistInput => handleCreatePlaylist s
  | .nowPlaying => handleNowPlayingSelection env s.selectedIndex s
  | .editSongTitle => s

/-- The discrete input events of the engine (wheel inputs, text input
changes, player callbacks, drag events). -/
inductive Event where
  | next
  | prev
  | center
  | centerLong
  | menu
  | playPause
  | songEnd
  | playerBecameReady
  | setUrl (t : String)
  | setName (t : String)
  | setQuery (t : String)
  | dragStartEv (i : Int)
  | dragEnterEv (i : Int)
  | dragEndEv
deriving Repr, DecidableEq

/-- Dispatch of one event to its handler. -/
def handleEvent (env : Env) (e : Event) (s : AppState) : AppState :=
  match e with
  | .next => handleNext s
  | .prev => handlePrev s
  | .center => handleCenterClick env s
  | .centerLong => handleCenterLongPress s
  | .menu => handleMenu s
  | .playPause => handlePlayPause s
  | .songEnd => handleSongEnd s
  | .playerBecameReady => { s with playerReady := true }
  | .setUrl t => { s with urlInput := t }
  | .setName t => { s with newPlaylistName := t }
  | .setQuery t => { s with playlistSearchQuery := t }
  | .dragStartEv i => handleDragStart i s
  | .dragEnterEv i => handleDragEnter i s
  | .dragEndEv => handleDragEnd s

/-- The effects that run after a state change commits:
the `useEffect` on `[playlistSearchQuery, view]` resets the selection to 0
inside the playlists view, and the player-setup effect binds the external
player whenever the now-playing view shows a current song. -/
def applyEffects (old new : AppState) : AppState :=
  let new :=
    if (new.view ≠ old.view ∨ new.playlistSearchQuery ≠ old.playlistSearchQuery) ∧
        new.view = .playlists then
      { new with selectedIndex := .num 0 }
    else new
  if new.view = .nowPlaying ∧ (currentSong new).isSome then
    { new with playerBound := true }
  else new

/-- One full input event: handler, then effects, then the wall clock
advances. -/
def step (env : Env) (e : Event) (s : AppState) : AppState :=
  let s1 := handleEvent env e s
  let s2 := applyEffects s s1
  { s2 with now := s2.now + 1 }

/-- The initial state of `App` for a stored playlist collection:
the initial view is the main menu when some stored playlist has songs,
otherwise the add-song view. -/
def initState (stored : List Playlist) : AppState :=
  { playlists := stored
    view :=
      if 0 < stored.length ∧ stored.any (fun p => 0 < p.songs.length) then .mainMenu
      else .addSong
    activePlaylistId := none
    nowPlaying := none
    playbackMode := .video
    repeatMode := .off
    isPlaying := false
    selectedIndex := .num 0
    urlInput := ""
    tempSong := none
    newPlaylistName := ""
    draggedItemIndex := none
    dragOverIndex := none
    selectedSongIndex := none
    playlistToDeleteId := none
    playlistSearchQuery := ""
    playerBound := false
    playerReady := false
    now := 0 }

/-- Run a sequence of events from the initial state. -/
def run (env : Env) (stored : List Playlist) (es : List Event) : AppState :=
  es.foldl (fun s e => step env e s) (initState stored)

/-- Reachability from a fresh start (empty persisted collection). -/
def ReachableFromEmpty (env : Env) (s : AppState) : Prop :=
  ∃ es : List Event, run env [] es = s

/-- The selection-index invariant claimed by the spec:
the index is an integer `i` with `0 ≤ i < max 1 N`, `N` the length of the
current view's derived item list (NaN satisfies no comparison). -/
def idxInvariant (s : AppState) : Prop :=
  ∃ i : Int, s.selectedIndex = .num i ∧ 0 ≤ i ∧ i < max 1 (viewItemsLength s : Int)

/-- The state with its selection index replaced by the integer `j`. -/
def withIdx (s : AppState) (j : Int) : AppState :=
  { s with selectedIndex := .num j }

/-- The selection index `handleNext` computes, per view; equals the old
index for views the switch does not navigate. -/
def nextIndexOf (s : AppState) : JSNum :=
  match s.view with
  | .mainMenu => navigate menuItems .next s.selectedIndex
  | .playlists => navigate (playlistMenuItems s) .next s.selectedIndex
  | .playlistView => navigate (getPlaylistViewItems s) .next s.selectedIndex
  | .selectPlaylistForSong => navigate (selectPlaylistForSongItems s) .next s.selectedIndex
  | .songMenu => navigate (["Play"] : List String) .next s.selectedIndex
  | .deleteSongConfirm => navigate (["No", "Yes"] : List String) .next s.selectedIndex
  | .deletePlaylistConfirm => navigate (["No", "Yes"] : List String) .next s.selectedIndex
  | .shuffleConfirm => navigate (["No", "Yes"] : List String) .next s.selectedIndex
  | .nowPlaying => navigate nowPlayingMenuItems .next s.selectedIndex
  | _ => s.selectedIndex

/-- The selection index `handlePrev` computes, per view. -/
def prevIndexOf (s : AppState) : JSNum :=
  match s.view with
  | .mainMenu => navigate menuItems .prev s.selectedIndex
  | .playlists => navigate (playlistMenuItems s) .prev s.selectedIndex
  | .playlistView => navigate (getPlaylistViewItems s) .prev s.selectedIndex
  | .selectPlaylistForSong => navigate (selectPlaylistForSongItems s) .prev s.selectedIndex
  | .songMenu => navigate (["Play"] : List String) .prev s.selectedIndex
  | .deleteSongConfirm => navigate (["No", "Yes"] : List String) .prev s.selectedIndex
  | .deletePlaylistConfirm => navigate (["No", "Yes"] : List String) .prev s.selectedIndex
  | .shuffleConfirm => navigate (["No", "Yes"] : List String) .prev s.selectedIndex
  | .nowPlaying => navigate nowPlayingMenuItems .prev s.selectedIndex
  | _ => s.selectedIndex

/-- A fixed environment for the concrete runs: text "u1" resolves to the
media identifier "v1", the random source always picks 0, the player reports
time 0. -/
def demoEnv : Env := ⟨fun t => if t = "u1" then some "v1" else none, fun _ => 0, 0⟩

/-- Event trace from a fresh start that leaves a stale `activePlaylistId`:
add a song into a new playlist A, create a second empty playlist B, open B
and delete it (the deletion does not clear `activePlaylistId`), start
playback via play-pause, then back out of now-playing: the stale id routes
back to the playlist-contents view whose item list is empty. -/
def staleActiveTrace : List Event :=
  [.setUrl "u1", .center, .center, .setName "A", .center, .menu,
   .next, .center, .setName "B", .center, .next, .center,
   .center, .next, .center, .playPause, .menu]

/-- The reachable state at the end of `staleActiveTrace`. -/
def staleActiveState : AppState := run demoEnv [] staleActiveTrace

/-- Event trace from a fresh start that stages a song for an existing
playlist and highlights the synthetic create-new entry (index 1) in the
select-playlist-for-song view. -/
def createNewHighlightTrace : List Event :=
  [.setUrl "u1", .center, .center, .setName "A", .center, .menu, .menu,
   .next, .center, .setUrl "u1", .center, .next]

/-- The reachable state at the end of `createNewHighlightTrace`. -/
def createNewHighlightState : AppState := run demoEnv [] createNewHighlightTrace

/-- A bare state used to instantiate theorems: the fresh-start state. -/
def baseState : AppState := initState []

/-- Concrete demo songs. -/
def songA : Song := ⟨"ida", "Song A"⟩

/-- Second demo song. -/
def songB : Song := ⟨"idb", "Song B"⟩

/-- Third demo song. -/
def songC : Song := ⟨"idc", "Song C"⟩

/-- Fourth demo song. -/
def songD : Song := ⟨"idd", "Song D"⟩

/-- A demo playlist with three songs. -/
def demoPlaylist : Playlist := ⟨"p1", "Demo", [songA, songB, songC]⟩

/-- A demo state whose active playlist is `demoPlaylist` and whose
now-playing pointer sits on its last track. -/
def demoState : AppState :=
  { baseState with
    playlists := [demoPlaylist]
    view := .playlistView
    activePlaylistId := some "p1"
    nowPlaying := some ⟨"p1", 2⟩ }

/-- The demo state with the now-playing song (index 2, the last track) also
staged for deletion. -/
def deleteNowPlayingState : AppState :=
  { demoState with selectedSongIndex := some 2 }

/-- A four-song playlist for the drag-reorder scenario. -/
def dragPlaylist : Playlist := ⟨"p2", "Drag", [songA, songB, songC, songD]⟩

/-- A state mid-drag: the song at position 0 of `dragPlaylist` is being
dragged. -/
def dragState : AppState :=
  { baseState with
    playlists := [dragPlaylist]
    view := .playlistView
    activePlaylistId := some "p2"
    draggedItemIndex := some 0 }

/-- A state in the select-playlist-for-song view with a staged temp song and
one existing one-song playlist. -/
def stagedSongState : AppState :=
  { baseState with
    playlists := [⟨"p3", "Mine", [songA]⟩]
    view := .selectPlaylistForSong
    tempSong := some ⟨"newid", "Song: newid"⟩
    selectedIndex := .num 0 }

/-- The playlist-creation scenario state: playlists "A" and "z" exist and
the name "B" has been typed. -/
def createScenarioState : AppState :=
  { baseState with
    playlists := [⟨"pa", "A", []⟩, ⟨"pz", "z", []⟩]
    view := .createPlaylistInput
    newPlaylistName := "B" }

/-! ### Helper lemmas -/

theorem tmod_nonneg_eq_emod {v : Int} {n : Nat} (hv : 0 ≤ v) :
    Int.tmod v (n : Int) = v % (n : Int) :=
  Int.tmod_eq_emod hv (Int.ofNat_nonneg n)

theorem jsMod_num {v : Int} {n : Nat} (hv : 0 ≤ v) (hn : 0 < n) :
    jsMod (.num v) n = .num (v % (n : Int)) := by
  simp only [jsMod, tmod_nonneg_eq_emod hv]
  rw [if_neg (by omega)]

/-! ### C10: staged song title -/

/-- C10: whenever the external resolver maps the entered text to a media
identifier `v`, the song staged by `handleAddSongUrl` has title exactly
`"Song: " ++ v`. -/
theorem addSongUrl_title (env : Env) (s : AppState) (v : String)
    (h : env.resolve s.urlInput = some v) :
    (handleAddSongUrl env s).tempSong = some ⟨v, "Song: " ++ v⟩ := by
  simp only [handleAddSongUrl, h]

/-- Witness for C10 at a concrete input. -/
theorem addSongUrl_title_witness :
    demoEnv.resolve ({ baseState with urlInput := "u1" } : AppState).urlInput = some "v1" ∧
      (handleAddSongUrl demoEnv { baseState with urlInput := "u1" }).tempSong =
        some ⟨"v1", "Song: " ++ "v1"⟩ :=
  ⟨by decide, addSongUrl_title demoEnv { baseState with urlInput := "u1" } "v1" (by decide)⟩

/-! ### C8: whitespace-only playlist name is a no-op -/

/-- C8: submitting a playlist name that trims to the empty string leaves the
whole state unchanged (no mutation, no transition, nothing cleared). -/
theorem createPlaylist_blank_noop (s : AppState) (h : jsTrim s.newPlaylistName = "") :
    handleCreatePlaylist s = s := by
  simp only [handleCreatePlaylist, h]
  rw [if_neg (by simp)]

/-- Witness for C8: the name consisting of two spaces. -/
theorem createPlaylist_blank_noop_witness :
    jsTrim ({ baseState with newPlaylistName := "  " } : AppState).newPlaylistName = "" ∧
      handleCreatePlaylist { baseState with newPlaylistName := "  " } =
        { baseState with newPlaylistName := "  " } :=
  ⟨by decide, createPlaylist_blank_noop { baseState with newPlaylistName := "  " } (by decide)⟩

/-! ### C4: track-ended policy under the three repeat modes -/

/-- C4: with a valid now-playing pointer (index `i` into a playlist of
length `L`), `handleSongEnd` replays in place under repeat-one (state
untouched), advances to `(i+1) mod L` under repeat-all, and under
repeat-off advances by one while `i+1 < L` but keeps the index and stops
playback when the ended track was the last one. -/
theorem songEnd_repeat_policy (s : AppState) (pid : String) (i : Int) (p : Playlist)
    (hnp : s.nowPlaying = some ⟨pid, i⟩)
    (hfind : s.playlists.find? (fun q => q.id == pid) = some p)
    (h0 : 0 ≤ i) (hi : i < (p.songs.length : Int)) :
    (s.repeatMode = .one → handleSongEnd s = s) ∧
    (s.repeatMode = .all →
      (handleSongEnd s).nowPlaying = some ⟨pid, (i + 1) % (p.songs.length : Int)⟩) ∧
    (s.repeatMode = .off →
      (i + 1 < (p.songs.length : Int) → (handleSongEnd s).nowPlaying = some ⟨pid, i + 1⟩) ∧
      (i + 1 = (p.songs.length : Int) →
        (handleSongEnd s).nowPlaying = some ⟨pid, i⟩ ∧ (handleSongEnd s).isPlaying = false)) := by
  have hL : p.songs.length ≠ 0 := by omega
  refine ⟨fun hm => ?_, fun hm => ?_, fun hm => ⟨fun hlt => ?_, fun heq => ?_⟩⟩
  · simp [handleSongEnd, hnp, hfind, hL, hm]
  · simp [handleSongEnd, hnp, hfind, hL, hm,
      tmod_nonneg_eq_emod (show (0:Int) ≤ i + 1 by omega)]
  · simp [handleSongEnd, hnp, hfind, hL, hm, hlt]
  · simp [handleSongEnd, hnp, hfind, hL, hm, heq]

/-- Witness for C4: the pointer sits on the last track (index 2 of 3). -/
theorem songEnd_repeat_policy_witness :
    (demoState.nowPlaying = some ⟨"p1", 2⟩ ∧ (0:Int) ≤ 2 ∧
      (2:Int) < (demoPlaylist.songs.length : Int)) ∧
    ((demoState.repeatMode = .one → handleSongEnd demoState = demoState) ∧
     (demoState.repeatMode = .all →
       (handleSongEnd demoState).nowPlaying =
         some ⟨"p1", ((2:Int) + 1) % (demoPlaylist.songs.length : Int)⟩) ∧
     (demoState.repeatMode = .off →
       ((2:Int) + 1 < (demoPlaylist.songs.length : Int) →
         (handleSongEnd demoState).nowPlaying = some ⟨"p1", 2 + 1⟩) ∧
       ((2:Int) + 1 = (demoPlaylist.songs.length : Int) →
         (handleSongEnd demoState).nowPlaying = some ⟨"p1", 2⟩ ∧
           (handleSongEnd demoState).isPlaying = false))) :=
  ⟨⟨by decide, by decide, by decide⟩,
    songEnd_repeat_policy demoState "p1" 2 demoPlaylist (by decide) (by decide)
      (by decide) (by decide)⟩

/-! ### C3: shuffle is a permutation -/

theorem cons_set_perm : ∀ (t : List α) (m : Nat) (b x : α),
    t[m]? = some b → (b :: t.set m x).Perm (x :: t) := by
  intro t
  induction t with
  | nil => intro m b x h; simp at h
  | cons y t ih =>
    intro m b x h
    cases m with
    | zero =>
      simp only [List.getElem?_cons_zero, Option.some.injEq] at h
      subst h
      simpa using List.Perm.swap x y t
    | succ m =>
      simp only [List.getElem?_cons_succ] at h
      have h1 : (b :: (y :: t).set (m + 1) x) = b :: y :: t.set m x := by simp
      rw [h1]
      exact ((List.Perm.swap y b (t.set m x)).trans ((ih m b x h).cons y)).trans
        (List.Perm.swap x y t)

theorem set_set_perm : ∀ (l : List α) (i j : Nat) (a b : α),
    l[i]? = some a → l[j]? = some b → ((l.set i b).set j a).Perm l := by
  intro l
  induction l with
  | nil => intro i j a b h; simp at h
  | cons x t ih =>
    intro i j a b hi hj
    cases i with
    | zero =>
      simp only [List.getElem?_cons_zero, Option.some.injEq] at hi
      subst hi
      cases j with
      | zero => simp
      | succ m =>
        simp only [List.getElem?_cons_succ] at hj
        simpa using cons_set_perm t m b x hj
    | succ n =>
      simp only [List.getElem?_cons_succ] at hi
      cases j with
      | zero =>
        simp only [List.getElem?_cons_zero, Option.some.injEq] at hj
        subst hj
        simpa using cons_set_perm t n a x hi
      | succ m =>
        simp only [List.getElem?_cons_succ] at hj
        simpa using (ih n m a b hi hj).cons x

theorem listSwap_perm (l : List α) (i j : Nat) : (listSwap l i j).Perm l := by
  unfold listSwap
  cases hi : l[i]? with
  | none => exact List.Perm.refl l
  | some a =>
    cases hj : l[j]? with
    | none => exact List.Perm.refl l
    | some b => exact set_set_perm l i j a b hi hj

theorem fisherYatesAux_perm (rand : Nat → Nat) :
    ∀ (n : Nat) (l : List α), (fisherYatesAux rand n l).Perm l := by
  intro n
  induction n with
  | zero => intro l; exact List.Perm.refl l
  | succ i ih =>
    intro l
    exact (ih _).trans (listSwap_perm l (i + 1) (rand (i + 1)))

theorem fisherYates_perm (rand : Nat → Nat) (l : List α) : (fisherYates rand l).Perm l :=
  fisherYatesAux_perm rand (l.length - 1) l

theorem find?_map_of_id_eq (g : Playlist → Playlist) (hg : ∀ q, (g q).id = q.id)
    (pid : String) :
    ∀ l : List Playlist,
      (l.map g).find? (fun q => q.id == pid) = (l.find? (fun q => q.id == pid)).map g := by
  intro l
  induction l with
  | nil => rfl
  | cons p t ih =>
    by_cases h : p.id = pid
    · simp [List.find?_cons, hg, h, ih]
    · simp [List.find?_cons, hg, h, ih]

/-- C3: confirming shuffle on a non-empty active playlist replaces its song
sequence by a permutation of it (same multiset of song ids, same length),
leaves every other playlist untouched in place, points now-playing at
(active playlist, 0) and moves to the now-playing view. -/
theorem shuffle_permutes (env : Env) (s : AppState) (pid : String) (p : Playlist)
    (hA : s.activePlaylistId = some pid)
    (hfind : s.playlists.find? (fun q => q.id == pid) = some p)
    (_hne : p.songs ≠ []) :
    (∃ p', (handleShufflePlaylist env s).playlists.find? (fun q => q.id == pid) = some p' ∧
      p'.songs.Perm p.songs ∧ (p'.songs.map Song.id).Perm (p.songs.map Song.id) ∧
      p'.songs.length = p.songs.length) ∧
    (∀ (i : Nat) (q : Playlist), s.playlists[i]? = some q → q.id ≠ pid →
      (handleShufflePlaylist env s).playlists[i]? = some q) ∧
    (handleShufflePlaylist env s).nowPlaying = some ⟨pid, 0⟩ ∧
    (handleShufflePlaylist env s).view = .nowPlaying := by
  have hg : ∀ q : Playlist,
      ((fun q => if q.id == pid then { q with songs := fisherYates env.rand q.songs } else q) q).id
        = q.id := by
    intro q
    by_cases h : q.id = pid <;> simp [h]
  have hpid : p.id = pid := by
    have := List.find?_some hfind
    simpa using this
  refine ⟨?_, ?_, ?_, ?_⟩
  · refine ⟨{ p with songs := fisherYates env.rand p.songs }, ?_, ?_, ?_, ?_⟩
    · simp only [handleShufflePlaylist, hA]
      rw [find?_map_of_id_eq _ hg pid s.playlists, hfind]
      simp [hpid]
    · exact fisherYates_perm env.rand p.songs
    · exact (fisherYates_perm env.rand p.songs).map Song.id
    · exact (fisherYates_perm env.rand p.songs).length_eq
  · intro i q hq hqid
    simp only [handleShufflePlaylist, hA, List.getElem?_map, hq, Option.map_some']
    simp [hqid]
  · simp [handleShufflePlaylist, hA]
  · simp [handleShufflePlaylist, hA]

/-- Witness for C3: shuffling the three-song demo playlist. -/
theorem shuffle_permutes_witness :
    (demoState.activePlaylistId = some "p1" ∧
      demoState.playlists.find? (fun q => q.id == "p1") = some demoPlaylist ∧
      demoPlaylist.songs ≠ []) ∧
    ((∃ p', (handleShufflePlaylist demoEnv demoState).playlists.find?
        (fun q => q.id == "p1") = some p' ∧
      p'.songs.Perm demoPlaylist.songs ∧
      (p'.songs.map Song.id).Perm (demoPlaylist.songs.map Song.id) ∧
      p'.songs.length = demoPlaylist.songs.length) ∧
    (∀ (i : Nat) (q : Playlist), demoState.playlists[i]? = some q → q.id ≠ "p1" →
      (handleShufflePlaylist demoEnv demoState).playlists[i]? = some q) ∧
    (handleShufflePlaylist demoEnv demoState).nowPlaying = some ⟨"p1", 0⟩ ∧
    (handleShufflePlaylist demoEnv demoState).view = .nowPlaying) :=
  ⟨⟨by decide, by decide, by decide⟩,
    shuffle_permutes demoEnv demoState "p1" demoPlaylist (by decide) (by decide) (by decide)⟩

/-! ### C7: playlist collection sorted after creation -/

theorem charListLe_total : ∀ l1 l2 : List Char,
    charListLe l1 l2 = true ∨ charListLe l2 l1 = true := by
  intro l1
  induction l1 with
  | nil => intro l2; left; rfl
  | cons a as ih =>
    intro l2
    cases l2 with
    | nil => right; rfl
    | cons b bs =>
      simp only [charListLe]
      rcases Nat.lt_trichotomy a.toNat b.toNat with h | h | h
      · left; simp [h]
      · rcases ih bs with h2 | h2
        · left; simp [h, h2]
        · right; simp [h, h2]
      · right; simp [h, Nat.lt_asymm h]

theorem charListLe_cons_elim {a b : Char} {as bs : List Char}
    (h : charListLe (a :: as) (b :: bs) = true) :
    a.toNat < b.toNat ∨ (a.toNat = b.toNat ∧ charListLe as bs = true) := by
  simp only [charListLe] at h
  by_cases h1 : a.toNat < b.toNat
  · exact Or.inl h1
  · by_cases h2 : b.toNat < a.toNat
    · rw [if_neg h1, if_pos h2] at h
      exact absurd h (by simp)
    · rw [if_neg h1, if_neg h2] at h
      exact Or.inr ⟨by omega, h⟩

theorem charListLe_trans : ∀ l1 l2 l3 : List Char,
    charListLe l1 l2 = true → charListLe l2 l3 = true → charListLe l1 l3 = true := by
  intro l1
  induction l1 with
  | nil => intro l2 l3 _ _; rfl
  | cons a as ih =>
    intro l2 l3 h12 h23
    cases l2 with
    | nil => simp [charListLe] at h12
    | cons b bs =>
      cases l3 with
      | nil => simp [charListLe] at h23
      | cons c cs =>
        rcases charListLe_cons_elim h12 with h1 | ⟨h1, h1r⟩ <;>
          rcases charListLe_cons_elim h23 with h2 | ⟨h2, h2r⟩ <;>
          simp only [charListLe]
        · rw [if_pos (Nat.lt_trans h1 h2)]
        · rw [if_pos (show a.toNat < c.toNat by omega)]
        · rw [if_pos (show a.toNat < c.toNat by omega)]
        · rw [if_neg (show ¬ a.toNat < c.toNat by omega),
            if_neg (show ¬ c.toNat < a.toNat by omega)]
          exact ih bs cs h1r h2r

/-- C7: creating a playlist with a name that trims non-empty leaves the
collection sorted by the case-insensitive name order, and in particular
creating "B" next to existing "A" and "z" yields the order [A, B, z]. -/
theorem createPlaylist_sorted :
    (∀ s : AppState, jsTrim s.newPlaylistName ≠ "" →
      List.Sorted (fun a b : Playlist => nameLe a b = true)
        (handleCreatePlaylist s).playlists) ∧
    (handleCreatePlaylist createScenarioState).playlists.map Playlist.name =
      ["A", "B", "z"] := by
  constructor
  · intro s h
    haveI : IsTotal Playlist (fun a b => nameLe a b = true) :=
      ⟨fun _ _ => charListLe_total _ _⟩
    haveI : IsTrans Playlist (fun a b => nameLe a b = true) :=
      ⟨fun _ _ _ => charListLe_trans _ _ _⟩
    simp only [handleCreatePlaylist, if_pos h]
    cases hts : s.tempSong <;>
      simpa using List.sorted_insertionSort _ _
  · decide

/-- Witness for C7: the A/z/B scenario discharges the non-empty-name
hypothesis. -/
theorem createPlaylist_sorted_witness :
    jsTrim createScenarioState.newPlaylistName ≠ "" ∧
    List.Sorted (fun a b : Playlist => nameLe a b = true)
      (handleCreatePlaylist createScenarioState).playlists :=
  ⟨by decide, createPlaylist_sorted.1 createScenarioState (by decide)⟩

/-! ### C9: incremental drag reorder -/

theorem insertIdx_perm_cons :
    ∀ (l : List α) (n : Nat) (a : α), n ≤ l.length → (l.insertIdx n a).Perm (a :: l) := by
  intro l
  induction l with
  | nil =>
    intro n a h
    have hn : n = 0 := by simpa using h
    subst hn
    simp
  | cons x t ih =>
    intro n a h
    cases n with
    | zero => simp
    | succ n =>
      rw [List.insertIdx_succ_cons]
      exact ((ih n a (by simpa using h)).cons x).trans (List.Perm.swap a x t)

theorem cons_eraseIdx_perm :
    ∀ (l : List α) (i : Nat) (a : α), l[i]? = some a → (a :: l.eraseIdx i).Perm l := by
  intro l
  induction l with
  | nil => intro i a h; simp at h
  | cons x t ih =>
    intro i a h
    cases i with
    | zero =>
      simp only [List.getElem?_cons_zero, Option.some.injEq] at h
      subst h
      simp
    | succ i =>
      simp only [List.getElem?_cons_succ] at h
      exact (List.Perm.swap x a (t.eraseIdx i)).trans ((ih i a h).cons x)

theorem getElem?_insertIdx_self (l : List α) (a : α) (n : Nat) (h : n ≤ l.length) :
    (l.insertIdx n a)[n]? = some a := by
  rw [List.getElem?_eq_getElem (by rw [List.length_insertIdx n l h]; omega)]
  rw [List.getElem_insertIdx_self l a n h]

/-- C9: a drag-enter step over a valid target `t` with the song originally
at `srcI` being dragged performs remove-then-insert (the result with the
moved song removed again is exactly the original minus that song, so all
other relative orders are preserved), places the moved song at `t`, keeps
the songs a permutation of the original, and updates the dragged index to
`t`; in particular dragging song 0 to position 2 of a 4-song playlist
yields the order [1, 2, 0, 3] by original indices. -/
theorem dragEnter_reorders :
    (∀ (s : AppState) (pid : String) (ap : Playlist) (srcI t : Nat) (removed : Song),
      s.activePlaylistId = some pid →
      s.playlists.find? (fun q => q.id == pid) = some ap →
      s.draggedItemIndex = some (srcI : Int) →
      ap.songs[srcI]? = some removed →
      t < ap.songs.length →
      srcI ≠ t →
      (handleDragEnter ((t : Int) + 1) s).playlists.find? (fun q => q.id == pid) =
          some { ap with songs := (ap.songs.eraseIdx srcI).insertIdx t removed } ∧
        (handleDragEnter ((t : Int) + 1) s).draggedItemIndex = some (t : Int) ∧
        ((ap.songs.eraseIdx srcI).insertIdx t removed).eraseIdx t = ap.songs.eraseIdx srcI ∧
        ((ap.songs.eraseIdx srcI).insertIdx t removed)[t]? = some removed ∧
        ((ap.songs.eraseIdx srcI).insertIdx t removed).Perm ap.songs) ∧
    (handleDragEnter 3 dragState).playlists.map Playlist.songs =
        [[songB, songC, songA, songD]] ∧
      (handleDragEnter 3 dragState).draggedItemIndex = some 2 := by
  refine ⟨?_, by decide, by decide⟩
  intro s pid ap srcI t removed hA hfind hdrag hsrc ht hne
  have hsrcLt : srcI < ap.songs.length := by
    by_contra hcon
    rw [List.getElem?_eq_none (by omega)] at hsrc
    exact Option.noConfusion hsrc
  have hlen : 0 < ap.songs.length := by omega
  have hap : activePlaylist s = some ap := by simp [activePlaylist, hA, hfind]
  have hpid : ap.id = pid := by simpa using List.find?_some hfind
  have htLe : t ≤ (ap.songs.eraseIdx srcI).length := by
    rw [List.length_eraseIdx_of_lt hsrcLt]
    omega
  have hg : ∀ q : Playlist,
      ((fun q => if q.id == ap.id
          then { q with songs := (ap.songs.eraseIdx srcI).insertIdx t removed } else q) q).id
        = q.id := by
    intro q
    by_cases h : q.id = ap.id <;> simp [h]
  have heq : handleDragEnter ((t : Int) + 1) s =
      { s with
        dragOverIndex := some (t : Int),
        playlists := s.playlists.map fun p =>
          if p.id == ap.id
          then { p with songs := (ap.songs.eraseIdx srcI).insertIdx t removed } else p,
        draggedItemIndex := some (t : Int) } := by
    simp only [handleDragEnter, hdrag, hap, hlen, if_true, if_pos]
    rw [if_neg (by omega)]
    rw [if_neg (show ¬ ((srcI : Int) = (t : Int) + 1 - 1) by omega)]
    simp only [Int.natCast_nonneg, if_true, Int.toNat_natCast, hsrc]
    norm_num
  refine ⟨?_, ?_, ?_, ?_, ?_⟩
  · rw [heq]
    show (List.map _ s.playlists).find? _ = _
    rw [hpid] at hg ⊢
    rw [find?_map_of_id_eq _ hg pid s.playlists, hfind]
    simp [hpid]
  · rw [heq]
  · exact List.eraseIdx_insertIdx t _
  · exact getElem?_insertIdx_self _ removed t htLe
  · exact (insertIdx_perm_cons _ t removed htLe).trans
      (cons_eraseIdx_perm ap.songs srcI removed hsrc)

/-- Witness for C9: the 4-song scenario instantiates every hypothesis. -/
theorem dragEnter_reorders_witness :
    (dragState.activePlaylistId = some "p2" ∧ dragPlaylist.songs[(0:Nat)]? = some songA ∧
      2 < dragPlaylist.songs.length ∧ (0:Nat) ≠ 2) ∧
    ((handleDragEnter (((2:Nat) : Int) + 1) dragState).playlists.find?
        (fun q => q.id == "p2") =
        some { dragPlaylist with
          songs := (dragPlaylist.songs.eraseIdx 0).insertIdx 2 songA } ∧
      (handleDragEnter (((2:Nat) : Int) + 1) dragState).draggedItemIndex =
        some ((2:Nat) : Int) ∧
      ((dragPlaylist.songs.eraseIdx 0).insertIdx 2 songA).eraseIdx 2 =
        dragPlaylist.songs.eraseIdx 0 ∧
      ((dragPlaylist.songs.eraseIdx 0).insertIdx 2 songA)[(2:Nat)]? = some songA ∧
      ((dragPlaylist.songs.eraseIdx 0).insertIdx 2 songA).Perm dragPlaylist.songs) :=
  ⟨⟨by decide, by decide, by decide, by decide⟩,
    dragEnter_reorders.1 dragState "p2" dragPlaylist 0 2 songA (by decide) (by decide)
      (by decide) (by decide) (by decide) (by decide)⟩

/-! ### C5: selecting a playlist for a staged song -/

/-- C5 counterexample: with one existing song in the chosen playlist, the
appended song ends up at playlist-contents item position 2 (after the
shuffle pseudo-item and the existing song), but the selection index is set
to 1, which highlights the pre-existing song, not the new one. -/
theorem addStagedSong_counterexample :
    (handleSelectPlaylistForSongSelection (.num 0) stagedSongState).view = .playlistView ∧
    (getPlaylistViewItems
        (handleSelectPlaylistForSongSelection (.num 0) stagedSongState))[(2:Nat)]? =
      some ⟨"newid", "Song: newid"⟩ ∧
    (getPlaylistViewItems
        (handleSelectPlaylistForSongSelection (.num 0) stagedSongState))[(1:Nat)]? =
      some ⟨"ida", "Song A"⟩ ∧
    (handleSelectPlaylistForSongSelection (.num 0) stagedSongState).selectedIndex =
      .num 1 := by
  decide

/-- C5 amended: selecting an existing playlist with a staged song appends
the song, clears the staged song, activates the playlist and moves to
playlist-contents, but sets the selection index to the playlist's length
from before the append — the appended song's index within the songs array,
which in the playlist-contents item list (offset by the shuffle
pseudo-item) denotes the slot one before the new song; the new song itself
sits at item position length + 1. -/
theorem addStagedSong_amended (s : AppState) (k : Nat) (q p : Playlist) (t : Song)
    (hsel : jsGet (selectPlaylistForSongItems s) (.num (k : Int)) = some q)
    (hq : q.id ≠ "new")
    (htemp : s.tempSong = some t)
    (hfind : s.playlists.find? (fun r => r.id == q.id) = some p) :
    (handleSelectPlaylistForSongSelection (.num (k : Int)) s).playlists.find?
        (fun r => r.id == q.id) = some { p with songs := p.songs ++ [t] } ∧
      (handleSelectPlaylistForSongSelection (.num (k : Int)) s).tempSong = none ∧
      (handleSelectPlaylistForSongSelection (.num (k : Int)) s).activePlaylistId =
        some q.id ∧
      (handleSelectPlaylistForSongSelection (.num (k : Int)) s).view = .playlistView ∧
      (handleSelectPlaylistForSongSelection (.num (k : Int)) s).selectedIndex =
        .num (p.songs.length : Int) ∧
      (getPlaylistViewItems
          (handleSelectPlaylistForSongSelection (.num (k : Int)) s))[p.songs.length + 1]? =
        some ⟨t.id, t.title⟩ := by
  have hg : ∀ r : Playlist,
      ((fun r => if r.id == q.id then { r with songs := r.songs ++ [t] } else r) r).id
        = r.id := by
    intro r
    by_cases h : r.id = q.id <;> simp [h]
  have hpid : p.id = q.id := by simpa using List.find?_some hfind
  have heq : handleSelectPlaylistForSongSelection (.num (k : Int)) s =
      { s with
        playlists := s.playlists.map fun r =>
          if r.id == q.id then { r with songs := r.songs ++ [t] } else r,
        tempSong := none,
        activePlaylistId := some q.id,
        view := .playlistView,
        selectedIndex := .num (p.songs.length : Int) } := by
    simp only [handleSelectPlaylistForSongSelection, hsel, htemp, addSongToPlaylist]
    rw [if_neg (by simpa using hq)]
    simp [hfind]
  have hfind' : (handleSelectPlaylistForSongSelection (.num (k : Int)) s).playlists.find?
      (fun r => r.id == q.id) = some { p with songs := p.songs ++ [t] } := by
    rw [heq]
    show (List.map _ s.playlists).find? _ = _
    rw [find?_map_of_id_eq _ hg q.id s.playlists, hfind]
    simp [hpid]
  refine ⟨hfind', by rw [heq], by rw [heq], by rw [heq], by rw [heq], ?_⟩
  have hactive : activePlaylist (handleSelectPlaylistForSongSelection (.num (k : Int)) s) =
      some { p with songs := p.songs ++ [t] } := by
    rw [activePlaylist]
    rw [show (handleSelectPlaylistForSongSelection (.num (k : Int)) s).activePlaylistId =
      some q.id by rw [heq]]
    exact hfind'
  simp only [getPlaylistViewItems, hactive]
  rw [if_pos (show 0 < (p.songs ++ [t]).length by simp)]
  rw [List.getElem?_append_left (by simp)]
  rw [List.getElem?_cons_succ]
  rw [List.getElem?_map]
  rw [List.getElem?_append_right (by omega)]
  simp

/-- Witness for C5 amended, at the one-song-playlist scenario. -/
theorem addStagedSong_amended_witness :
    (jsGet (selectPlaylistForSongItems stagedSongState) (.num ((0:Nat) : Int)) =
        some ⟨"p3", "Mine", [songA]⟩ ∧
      stagedSongState.tempSong = some ⟨"newid", "Song: newid"⟩) ∧
    ((handleSelectPlaylistForSongSelection (.num ((0:Nat) : Int))
          stagedSongState).playlists.find? (fun r => r.id == "p3") =
        some { (⟨"p3", "Mine", [songA]⟩ : Playlist) with
          songs := [songA] ++ [⟨"newid", "Song: newid"⟩] } ∧
      (handleSelectPlaylistForSongSelection (.num ((0:Nat) : Int))
          stagedSongState).tempSong = none ∧
      (handleSelectPlaylistForSongSelection (.num ((0:Nat) : Int))
          stagedSongState).activePlaylistId = some "p3" ∧
      (handleSelectPlaylistForSongSelection (.num ((0:Nat) : Int))
          stagedSongState).view = .playlistView ∧
      (handleSelectPlaylistForSongSelection (.num ((0:Nat) : Int))
          stagedSongState).selectedIndex =
        .num (([songA] : List Song).length : Int) ∧
      (getPlaylistViewItems
          (handleSelectPlaylistForSongSelection (.num ((0:Nat) : Int))
            stagedSongState))[([songA] : List Song).length + 1]? =
        some ⟨"newid", "Song: newid"⟩) :=
  ⟨⟨by decide, by decide⟩,
    addStagedSong_amended stagedSongState 0 ⟨"p3", "Mine", [songA]⟩ ⟨"p3", "Mine", [songA]⟩
      ⟨"newid", "Song: newid"⟩ (by decide) (by decide) (by decide) (by decide)⟩

/-! ### C6: deleting the song at the now-playing index -/

/-- C6: deleting the song the now-playing pointer references leaves the
pointer in place over the shortened list; the current-song lookup then
reads the checked position (the shifted-down successor when one exists,
absence when the deleted song was the last), and each consumer of the
pointer — track-ended handling, next track, previous track — either stops
playback, keeps the state unchanged (so its reads resolve to absence), or
moves the pointer to an index that is again in range; no consumer ever
dereferences the stale index unchecked. -/
theorem deleteSong_nowPlaying_safe (env : Env) (s : AppState) (pid : String) (i : Nat) (p : Playlist)
    (hA : s.activePlaylistId = some pid)
    (hS : s.selectedSongIndex = some i)
    (hN : s.nowPlaying = some ⟨pid, (i : Int)⟩)
    (hfind : s.playlists.find? (fun q => q.id == pid) = some p)
    (hi : i < p.songs.length)
    (henv : env.playerTime ≤ 3) :
    (handleDeleteSong s).nowPlaying = some ⟨pid, (i : Int)⟩ ∧
    (handleDeleteSong s).playlists.find? (fun q => q.id == pid) =
      some { p with songs := p.songs.eraseIdx i } ∧
    currentSong (handleDeleteSong s) = p.songs[i + 1]? ∧
    (i + 1 < p.songs.length → (currentSong (handleDeleteSong s)).isSome) ∧
    (i + 1 = p.songs.length → currentSong (handleDeleteSong s) = none) ∧
    (i + 1 = p.songs.length → s.repeatMode = .off →
      handleSongEnd (handleDeleteSong s) = { handleDeleteSong s with isPlaying := false }) ∧
    (i + 1 = p.songs.length → p.songs.length = 1 →
      handleSongEnd (handleDeleteSong s) = { handleDeleteSong s with isPlaying := false }) ∧
    (i + 1 = p.songs.length → s.repeatMode = .one → 1 < p.songs.length →
      handleSongEnd (handleDeleteSong s) = handleDeleteSong s) ∧
    (i + 1 = p.songs.length → s.repeatMode = .all → 1 < p.songs.length →
      ∃ j : Int, (handleSongEnd (handleDeleteSong s)).nowPlaying = some ⟨pid, j⟩ ∧
        0 ≤ j ∧ j < (p.songs.length : Int) - 1) ∧
    (i + 1 = p.songs.length → s.repeatMode ≠ .all →
      handleNextTrack (handleDeleteSong s) = handleDeleteSong s) ∧
    (i + 1 = p.songs.length → s.repeatMode = .all → 1 < p.songs.length →
      (handleNextTrack (handleDeleteSong s)).nowPlaying = some ⟨pid, 0⟩) ∧
    (i + 1 = p.songs.length → s.repeatMode = .all → p.songs.length = 1 →
      currentSong (handleNextTrack (handleDeleteSong s)) = none) ∧
    (i + 1 = p.songs.length → 0 < i →
      (handlePrevTrack env (handleDeleteSong s)).nowPlaying = some ⟨pid, (i : Int) - 1⟩) ∧
    (i + 1 = p.songs.length → i = 0 →
      handlePrevTrack env (handleDeleteSong s) = handleDeleteSong s) := by
  have hg : ∀ q : Playlist,
      ((fun q => if q.id == pid then { q with songs := q.songs.eraseIdx i } else q) q).id
        = q.id := by
    intro q
    by_cases h : q.id = pid <;> simp [h]
  have hpid : p.id = pid := by simpa using List.find?_some hfind
  have h5 := List.length_eraseIdx_of_lt hi
  have hD : handleDeleteSong s =
      { s with
        playlists := s.playlists.map fun q =>
          if q.id == pid then { q with songs := q.songs.eraseIdx i } else q,
        view := .playlistView, selectedSongIndex := none, selectedIndex := .num 0 } := by
    simp only [handleDeleteSong, hA, hS]
  have hDnow : (handleDeleteSong s).nowPlaying = some ⟨pid, (i : Int)⟩ := by
    rw [hD]; exact hN
  have hDrm : (handleDeleteSong s).repeatMode = s.repeatMode := by rw [hD]
  have hfind' : (handleDeleteSong s).playlists.find? (fun q => q.id == pid) =
      some { p with songs := p.songs.eraseIdx i } := by
    rw [hD]
    show (List.map _ s.playlists).find? _ = _
    rw [find?_map_of_id_eq _ hg pid s.playlists, hfind]
    simp [hpid]
  have hcur : currentSong (handleDeleteSong s) = p.songs[i + 1]? := by
    simp only [currentSong, hDnow, hfind']
    rw [if_pos (show (0:Int) ≤ (i:Int) by omega)]
    show (p.songs.eraseIdx i)[((i : Int)).toNat]? = _
    rw [Int.toNat_natCast]
    exact List.getElem?_eraseIdx_of_ge p.songs i i le_rfl
  refine ⟨hDnow, hfind', hcur, ?_, ?_, ?_, ?_, ?_, ?_, ?_, ?_, ?_, ?_, ?_⟩
  · intro hlt
    rw [hcur, List.getElem?_eq_getElem hlt]
    simp
  · intro heq
    rw [hcur, List.getElem?_eq_none (by omega)]
  · intro heq hm
    by_cases hL1 : p.songs.length = 1
    · simp only [handleSongEnd, hDnow, hfind']
      rw [if_pos (show ({ p with songs := p.songs.eraseIdx i } : Playlist).songs.length = 0 by
        show (p.songs.eraseIdx i).length = 0; omega)]
    · simp only [handleSongEnd, hDnow, hfind', hDrm, hm]
      rw [if_neg (show ¬ (({ p with songs := p.songs.eraseIdx i } : Playlist).songs.length = 0) by
        show ¬ ((p.songs.eraseIdx i).length = 0); omega)]
      rw [if_neg (show ¬ (RepeatMode.off = RepeatMode.one) by decide)]
      rw [if_neg (show ¬ (RepeatMode.off = RepeatMode.all) by decide)]
      rw [if_neg (show
        ¬ ((i:Int) + 1 < (({ p with songs := p.songs.eraseIdx i } : Playlist).songs.length : Int)) by
        show ¬ ((i:Int) + 1 < ((p.songs.eraseIdx i).length : Int)); omega)]
  · intro heq hL1
    simp only [handleSongEnd, hDnow, hfind']
    rw [if_pos (show ({ p with songs := p.songs.eraseIdx i } : Playlist).songs.length = 0 by
      show (p.songs.eraseIdx i).length = 0; omega)]
  · intro heq hm hL
    simp only [handleSongEnd, hDnow, hfind', hDrm, hm]
    rw [if_neg (show ¬ (({ p with songs := p.songs.eraseIdx i } : Playlist).songs.length = 0) by
      show ¬ ((p.songs.eraseIdx i).length = 0); omega)]
    simp only [if_true]
  · intro heq hm hL
    have hpos : (0 : Int) < ((p.songs.eraseIdx i).length : Int) := by omega
    have hse : (handleSongEnd (handleDeleteSong s)).nowPlaying =
        some ⟨pid, Int.tmod ((i : Int) + 1)
          ((({ p with songs := p.songs.eraseIdx i } : Playlist)).songs.length : Int)⟩ := by
      simp only [handleSongEnd, hDnow, hfind', hDrm, hm]
      rw [if_neg (show ¬ (({ p with songs := p.songs.eraseIdx i } : Playlist).songs.length = 0) by
        show ¬ ((p.songs.eraseIdx i).length = 0); omega)]
      rw [if_neg (show ¬ (RepeatMode.all = RepeatMode.one) by decide)]
      simp only [if_true]
    rw [hse]
    rw [show ((({ p with songs := p.songs.eraseIdx i } : Playlist)).songs.length : Int)
      = ((p.songs.eraseIdx i).length : Int) from rfl]
    rw [tmod_nonneg_eq_emod (by omega)]
    refine ⟨_, rfl, Int.emod_nonneg _ (by omega), ?_⟩
    have := Int.emod_lt_of_pos ((i : Int) + 1) hpos
    omega
  · intro heq hm
    simp only [handleNextTrack, hDnow, hfind', hDrm]
    rw [if_neg (show
      ¬ ((i:Int) + 1 < (({ p with songs := p.songs.eraseIdx i } : Playlist).songs.length : Int)) by
      show ¬ ((i:Int) + 1 < ((p.songs.eraseIdx i).length : Int)); omega)]
    rw [if_neg hm]
  · intro heq hm hL
    simp only [handleNextTrack, hDnow, hfind', hDrm, hm]
    rw [if_neg (show
      ¬ ((i:Int) + 1 < (({ p with songs := p.songs.eraseIdx i } : Playlist).songs.length : Int)) by
      show ¬ ((i:Int) + 1 < ((p.songs.eraseIdx i).length : Int)); omega)]
    simp only [if_true]
  · intro heq hm hL1
    have hnil : p.songs.eraseIdx i = [] := by
      rw [← List.length_eq_zero]
      omega
    have hnext : handleNextTrack (handleDeleteSong s) =
        { handleDeleteSong s with nowPlaying := some ⟨pid, 0⟩ } := by
      simp only [handleNextTrack, hDnow, hfind', hDrm, hm]
      rw [if_neg (show
        ¬ ((i:Int) + 1 < (({ p with songs := p.songs.eraseIdx i } : Playlist).songs.length : Int)) by
        show ¬ ((i:Int) + 1 < ((p.songs.eraseIdx i).length : Int)); omega)]
      simp only [if_true]
    rw [hnext]
    simp only [currentSong]
    rw [show ({ handleDeleteSong s with nowPlaying := some ⟨pid, (0:Int)⟩ } : AppState).playlists.find?
        (fun q => q.id == pid) = some { p with songs := p.songs.eraseIdx i } from hfind']
    simp [hnil]
  · intro heq hpos0
    simp only [handlePrevTrack, hDnow]
    rw [if_neg (show ¬ ((3:Int) < if (handleDeleteSong s).playerBound then env.playerTime else 0) by
      split <;> omega)]
    rw [if_pos (show (0:Int) < (i : Int) by omega)]
  · intro heq hzero
    simp only [handlePrevTrack, hDnow, hfind', hDrm]
    rw [if_neg (show ¬ ((3:Int) < if (handleDeleteSong s).playerBound then env.playerTime else 0) by
      split <;> omega)]
    rw [if_neg (show ¬ ((0:Int) < (i : Int)) by omega)]
    rw [if_neg (show ¬ (s.repeatMode = .all ∧
        0 < ({ p with songs := p.songs.eraseIdx i } : Playlist).songs.length) by
      rintro ⟨-, hc⟩
      revert hc
      show ¬ (0 < (p.songs.eraseIdx i).length)
      omega)]

/-- Witness for C6: deleting the last track (index 2 of 3) while it is now
playing. -/
theorem deleteSong_nowPlaying_safe_witness :
    (deleteNowPlayingState.selectedSongIndex = some 2 ∧
      2 < demoPlaylist.songs.length ∧ demoEnv.playerTime ≤ 3) ∧
    ((handleDeleteSong deleteNowPlayingState).nowPlaying = some ⟨"p1", ((2:Nat) : Int)⟩ ∧
    (handleDeleteSong deleteNowPlayingState).playlists.find? (fun q => q.id == "p1") =
      some { demoPlaylist with songs := demoPlaylist.songs.eraseIdx 2 } ∧
    currentSong (handleDeleteSong deleteNowPlayingState) = demoPlaylist.songs[2 + 1]? ∧
    (2 + 1 < demoPlaylist.songs.length →
      (currentSong (handleDeleteSong deleteNowPlayingState)).isSome) ∧
    (2 + 1 = demoPlaylist.songs.length →
      currentSong (handleDeleteSong deleteNowPlayingState) = none) ∧
    (2 + 1 = demoPlaylist.songs.length → deleteNowPlayingState.repeatMode = .off →
      handleSongEnd (handleDeleteSong deleteNowPlayingState) =
        { handleDeleteSong deleteNowPlayingState with isPlaying := false }) ∧
    (2 + 1 = demoPlaylist.songs.length → demoPlaylist.songs.length = 1 →
      handleSongEnd (handleDeleteSong deleteNowPlayingState) =
        { handleDeleteSong deleteNowPlayingState with isPlaying := false }) ∧
    (2 + 1 = demoPlaylist.songs.length → deleteNowPlayingState.repeatMode = .one →
      1 < demoPlaylist.songs.length →
      handleSongEnd (handleDeleteSong deleteNowPlayingState) =
        handleDeleteSong deleteNowPlayingState) ∧
    (2 + 1 = demoPlaylist.songs.length → deleteNowPlayingState.repeatMode = .all →
      1 < demoPlaylist.songs.length →
      ∃ j : Int, (handleSongEnd (handleDeleteSong deleteNowPlayingState)).nowPlaying =
          some ⟨"p1", j⟩ ∧ 0 ≤ j ∧ j < (demoPlaylist.songs.length : Int) - 1) ∧
    (2 + 1 = demoPlaylist.songs.length → deleteNowPlayingState.repeatMode ≠ .all →
      handleNextTrack (handleDeleteSong deleteNowPlayingState) =
        handleDeleteSong deleteNowPlayingState) ∧
    (2 + 1 = demoPlaylist.songs.length → deleteNowPlayingState.repeatMode = .all →
      1 < demoPlaylist.songs.length →
      (handleNextTrack (handleDeleteSong deleteNowPlayingState)).nowPlaying =
        some ⟨"p1", 0⟩) ∧
    (2 + 1 = demoPlaylist.songs.length → deleteNowPlayingState.repeatMode = .all →
      demoPlaylist.songs.length = 1 →
      currentSong (handleNextTrack (handleDeleteSong deleteNowPlayingState)) = none) ∧
    (2 + 1 = demoPlaylist.songs.length → 0 < 2 →
      (handlePrevTrack demoEnv (handleDeleteSong deleteNowPlayingState)).nowPlaying =
        some ⟨"p1", ((2:Nat) : Int) - 1⟩) ∧
    (2 + 1 = demoPlaylist.songs.length → 2 = 0 →
      handlePrevTrack demoEnv (handleDeleteSong deleteNowPlayingState) =
        handleDeleteSong deleteNowPlayingState)) :=
  ⟨⟨by decide, by decide, by decide⟩,
    deleteSong_nowPlaying_safe demoEnv deleteNowPlayingState "p1" 2 demoPlaylist
      (by decide) (by decide) (by decide) (by decide) (by decide) (by decide)⟩

/-! ### C2: circular navigation round-trips -/

theorem navigate_next_num (items : List α) (j : Int) (h0 : 0 ≤ j) (hl : 0 < items.length) :
    navigate items .next (.num j) = .num ((j + 1) % (items.length : Int)) := by
  simp only [navigate, jsAdd]
  exact jsMod_num (by omega) hl

theorem navigate_prev_num (items : List α) (j : Int) (h0 : 0 ≤ j) (hl : 0 < items.length) :
    navigate items .prev (.num j) =
      .num ((j - 1 + (items.length : Int)) % (items.length : Int)) := by
  simp only [navigate, jsAdd]
  rw [show j + -1 + (items.length : Int) = j - 1 + (items.length : Int) by ring]
  exact jsMod_num (by omega) hl

theorem handleNext_eq (s : AppState) : handleNext s = { s with selectedIndex := nextIndexOf s } := by
  rcases s with ⟨pls, v, apid, np, pm, rm, ip, si, ui, ts, npn, dii, doi, ssi, ptd, q, pb, pr, n⟩
  cases v <;> rfl

theorem handlePrev_eq (s : AppState) : handlePrev s = { s with selectedIndex := prevIndexOf s } := by
  rcases s with ⟨pls, v, apid, np, pm, rm, ip, si, ui, ts, npn, dii, doi, ssi, ptd, q, pb, pr, n⟩
  cases v <;> rfl

theorem viewItemsLength_withIdx (s : AppState) (j : Int) :
    viewItemsLength (withIdx s j) = viewItemsLength s := rfl

theorem nextIndexOf_withIdx (s : AppState) (j : Int) (h0 : 0 ≤ j)
    (hN : 0 < viewItemsLength s) :
    nextIndexOf (withIdx s j) = .num ((j + 1) % (viewItemsLength s : Int)) := by
  rcases s with ⟨pls, v, apid, np, pm, rm, ip, si, ui, ts, npn, dii, doi, ssi, ptd, q, pb, pr, n⟩
  cases v <;> first
    | exact navigate_next_num _ j h0 hN
    | exact absurd hN (Nat.lt_irrefl 0)

theorem prevIndexOf_withIdx (s : AppState) (j : Int) (h0 : 0 ≤ j)
    (hN : 0 < viewItemsLength s) :
    prevIndexOf (withIdx s j) =
      .num ((j - 1 + (viewItemsLength s : Int)) % (viewItemsLength s : Int)) := by
  rcases s with ⟨pls, v, apid, np, pm, rm, ip, si, ui, ts, npn, dii, doi, ssi, ptd, q, pb, pr, n⟩
  cases v <;> first
    | exact navigate_prev_num _ j h0 hN
    | exact absurd hN (Nat.lt_irrefl 0)

theorem handleNext_withIdx (s : AppState) (j : Int) (h0 : 0 ≤ j)
    (hN : 0 < viewItemsLength s) :
    handleNext (withIdx s j) = withIdx s ((j + 1) % (viewItemsLength s : Int)) := by
  rw [handleNext_eq, nextIndexOf_withIdx s j h0 hN]
  rfl

theorem handlePrev_withIdx (s : AppState) (j : Int) (h0 : 0 ≤ j)
    (hN : 0 < viewItemsLength s) :
    handlePrev (withIdx s j) =
      withIdx s ((j - 1 + (viewItemsLength s : Int)) % (viewItemsLength s : Int)) := by
  rw [handlePrev_eq, prevIndexOf_withIdx s j h0 hN]
  rfl

theorem iterate_handleNext (s : AppState) (j : Int) (h0 : 0 ≤ j)
    (hj : j < (viewItemsLength s : Int)) :
    ∀ k : Nat, (handleNext)^[k] (withIdx s j) =
      withIdx s ((j + (k : Int)) % (viewItemsLength s : Int)) := by
  have hN : 0 < viewItemsLength s := by
    by_contra h
    have : viewItemsLength s = 0 := by omega
    rw [this] at hj
    omega
  intro k
  induction k with
  | zero =>
    simp only [Function.iterate_zero, id_eq, Nat.cast_zero, Int.add_zero]
    rw [Int.emod_eq_of_lt h0 hj]
  | succ k ih =>
    rw [Function.iterate_succ_apply', ih]
    rw [handleNext_withIdx s _ (Int.emod_nonneg _ (by omega)) hN]
    rw [Int.emod_add_emod]
    rw [show j + (k : Int) + 1 = j + ((k : Int) + 1) by ring]
    rw [show (((k + 1 : Nat)) : Int) = (k : Int) + 1 by push_cast; ring]

theorem iterate_handlePrev (s : AppState) (j : Int) (h0 : 0 ≤ j)
    (hj : j < (viewItemsLength s : Int)) :
    ∀ k : Nat, (handlePrev)^[k] (withIdx s j) =
      withIdx s ((j - (k : Int)) % (viewItemsLength s : Int)) := by
  have hN : 0 < viewItemsLength s := by
    by_contra h
    have : viewItemsLength s = 0 := by omega
    rw [this] at hj
    omega
  intro k
  induction k with
  | zero =>
    simp only [Function.iterate_zero, id_eq, Nat.cast_zero, Int.sub_zero]
    rw [Int.emod_eq_of_lt h0 hj]
  | succ k ih =>
    rw [Function.iterate_succ_apply', ih]
    rw [handlePrev_withIdx s _ (Int.emod_nonneg _ (by omega)) hN]
    rw [show (j - (k : Int)) % (viewItemsLength s : Int) - 1 + (viewItemsLength s : Int)
        = (j - (k : Int)) % (viewItemsLength s : Int) + ((viewItemsLength s : Int) - 1) by ring]
    rw [Int.emod_add_emod]
    rw [show j - (k : Int) + ((viewItemsLength s : Int) - 1)
        = (j - ((k : Int) + 1)) + (viewItemsLength s : Int) * 1 by ring]
    rw [Int.add_mul_emod_self_left]
    rw [show (((k + 1 : Nat)) : Int) = (k : Int) + 1 by push_cast; ring]

/-- C2: from any state whose current view has a derived item list of
length `N > 0` and whose selection index is a valid integer position,
applying onNext `N` times and then onPrev `N` times returns the selection
index to its original value. -/
theorem nav_round_trip (s : AppState) (i : Int)
    (hsi : s.selectedIndex = .num i) (h0 : 0 ≤ i)
    (hi : i < (viewItemsLength s : Int)) :
    ((handlePrev)^[viewItemsLength s]
      ((handleNext)^[viewItemsLength s] s)).selectedIndex = s.selectedIndex := by
  have hs : withIdx s i = s := by
    rcases s with ⟨pls, v, apid, np, pm, rm, ip, si, ui, ts, npn, dii, doi, ssi, ptd, q, pb, pr, n⟩
    simp only at hsi
    rw [withIdx, hsi]
  have h1 : (handleNext)^[viewItemsLength s] s =
      withIdx s ((i + (viewItemsLength s : Int)) % (viewItemsLength s : Int)) := by
    conv_lhs => rw [← hs]
    exact iterate_handleNext s i h0 hi (viewItemsLength s)
  have h2 : (i + (viewItemsLength s : Int)) % (viewItemsLength s : Int) = i := by
    rw [show i + (viewItemsLength s : Int) = i + (viewItemsLength s : Int) * 1 by ring]
    rw [Int.add_mul_emod_self_left]
    exact Int.emod_eq_of_lt h0 hi
  rw [h1, h2]
  have h3 : (handlePrev)^[viewItemsLength s] (withIdx s i) =
      withIdx s ((i - (viewItemsLength s : Int)) % (viewItemsLength s : Int)) :=
    iterate_handlePrev s i h0 hi (viewItemsLength s)
  have h4 : (i - (viewItemsLength s : Int)) % (viewItemsLength s : Int) = i := by
    rw [show i - (viewItemsLength s : Int) = i + (viewItemsLength s : Int) * (-1) by ring]
    rw [Int.add_mul_emod_self_left]
    exact Int.emod_eq_of_lt h0 hi
  rw [h3, h4, hs]

/-- Witness for C2: the playlist-contents view of the demo state, with its
five derived items, starting at index 0. -/
theorem nav_round_trip_witness :
    (demoState.selectedIndex = .num 0 ∧ (0:Int) ≤ 0 ∧
      (0:Int) < (viewItemsLength demoState : Int)) ∧
    ((handlePrev)^[viewItemsLength demoState]
      ((handleNext)^[viewItemsLength demoState] demoState)).selectedIndex =
      demoState.selectedIndex :=
  ⟨⟨by decide, by decide, by decide⟩,
    nav_round_trip demoState 0 (by decide) (by decide) (by decide)⟩

/-! ### C1: the selection-index invariant -/

theorem viewItemsLength_setIdx (s : AppState) (x : JSNum) :
    viewItemsLength { s with selectedIndex := x } = viewItemsLength s := rfl

theorem applyEffects_same_view (old new : AppState) (hv : new.view = old.view)
    (hq : new.playlistSearchQuery = old.playlistSearchQuery) :
    (applyEffects old new).selectedIndex = new.selectedIndex ∧
    viewItemsLength (applyEffects old new) = viewItemsLength new := by
  have h1 : applyEffects old new =
      (if new.view = View.nowPlaying ∧ (currentSong new).isSome
        then { new with playerBound := true } else new) := by
    unfold applyEffects
    rw [if_neg (show ¬ ((new.view ≠ old.view ∨
        new.playlistSearchQuery ≠ old.playlistSearchQuery) ∧
        new.view = View.playlists) by simp [hv, hq])]
  rw [h1]
  split
  · exact ⟨rfl, rfl⟩
  · exact ⟨rfl, rfl⟩

theorem step_next_projections (env : Env) (s : AppState) :
    (step env .next s).selectedIndex = (handleNext s).selectedIndex ∧
    viewItemsLength (step env .next s) = viewItemsLength (handleNext s) := by
  have h := applyEffects_same_view s (handleNext s)
    (by rw [handleNext_eq]) (by rw [handleNext_eq])
  exact ⟨h.1, h.2⟩

theorem step_prev_projections (env : Env) (s : AppState) :
    (step env .prev s).selectedIndex = (handlePrev s).selectedIndex ∧
    viewItemsLength (step env .prev s) = viewItemsLength (handlePrev s) := by
  have h := applyEffects_same_view s (handlePrev s)
    (by rw [handlePrev_eq]) (by rw [handlePrev_eq])
  exact ⟨h.1, h.2⟩

/-- C1 amended: onNext/onPrev update the index as `(i ± 1 + N) mod N`
with no flooring of `N` at 1; from any state whose current item list is
non-empty and whose index is an integer in `[0, N)`, the updated index is
again in `[0, N)` and hence satisfies `0 <= index < max(1, N)`.  On the
reachable states of the counterexample the guarantee fails: onNext over an
empty item list stores NaN, and onCenter entering the name-input view
leaves a stale positive index. -/
theorem step_nav_amended (env : Env) (s : AppState) (i : Int)
    (hsi : s.selectedIndex = .num i) (h0 : 0 ≤ i)
    (hi : i < (viewItemsLength s : Int)) :
    idxInvariant (step env .next s) ∧ idxInvariant (step env .prev s) ∧
    (step env .next s).selectedIndex = .num ((i + 1) % (viewItemsLength s : Int)) ∧
    (step env .prev s).selectedIndex =
      .num ((i - 1 + (viewItemsLength s : Int)) % (viewItemsLength s : Int)) := by
  have hN : 0 < viewItemsLength s := by
    by_contra h
    have hz : viewItemsLength s = 0 := by omega
    rw [hz] at hi
    omega
  have hs : withIdx s i = s := by
    rcases s with ⟨pls, v, apid, np, pm, rm, ip, si, ui, ts, npn, dii, doi, ssi, ptd, q, pb, pr, n⟩
    simp only at hsi
    rw [withIdx, hsi]
  have hnext : handleNext s = withIdx s ((i + 1) % (viewItemsLength s : Int)) := by
    conv_lhs => rw [← hs]
    exact handleNext_withIdx s i h0 hN
  have hprev : handlePrev s =
      withIdx s ((i - 1 + (viewItemsLength s : Int)) % (viewItemsLength s : Int)) := by
    conv_lhs => rw [← hs]
    exact handlePrev_withIdx s i h0 hN
  have hnsel : (step env .next s).selectedIndex =
      .num ((i + 1) % (viewItemsLength s : Int)) := by
    rw [(step_next_projections env s).1, hnext]
    rfl
  have hpsel : (step env .prev s).selectedIndex =
      .num ((i - 1 + (viewItemsLength s : Int)) % (viewItemsLength s : Int)) := by
    rw [(step_prev_projections env s).1, hprev]
    rfl
  have hnlen : viewItemsLength (step env .next s) = viewItemsLength s := by
    rw [(step_next_projections env s).2, hnext]
    exact viewItemsLength_withIdx s _
  have hplen : viewItemsLength (step env .prev s) = viewItemsLength s := by
    rw [(step_prev_projections env s).2, hprev]
    exact viewItemsLength_withIdx s _
  refine ⟨⟨(i + 1) % (viewItemsLength s : Int), hnsel, Int.emod_nonneg _ (by omega), ?_⟩,
    ⟨(i - 1 + (viewItemsLength s : Int)) % (viewItemsLength s : Int), hpsel,
      Int.emod_nonneg _ (by omega), ?_⟩, hnsel, hpsel⟩
  · rw [hnlen]
    have := Int.emod_lt_of_pos (i + 1) (show (0:Int) < (viewItemsLength s : Int) by omega)
    omega
  · rw [hplen]
    have := Int.emod_lt_of_pos (i - 1 + (viewItemsLength s : Int))
      (show (0:Int) < (viewItemsLength s : Int) by omega)
    omega

/-- C1 counterexample: two reachable states violate the claimed invariant.
After deleting a playlist, `activePlaylistId` is left dangling, and backing
out of now-playing returns to the playlist-contents view whose derived item
list is empty; onNext there computes `(0 + 1) % 0`, storing NaN.  And in
the select-playlist-for-song view, activating the create-new entry at
index 1 switches to the name-input view (no item list, so `max(1, N) = 1`)
while keeping index 1. -/
theorem selection_invariant_counterexample :
    ReachableFromEmpty demoEnv staleActiveState ∧
    ¬ idxInvariant (step demoEnv .next staleActiveState) ∧
    ReachableFromEmpty demoEnv createNewHighlightState ∧
    ¬ idxInvariant (step demoEnv .center createNewHighlightState) := by
  refine ⟨⟨staleActiveTrace, rfl⟩, ?_, ⟨createNewHighlightTrace, rfl⟩, ?_⟩
  · rintro ⟨i, h, -, -⟩
    have hnan : (step demoEnv .next staleActiveState).selectedIndex = JSNum.nan := by decide
    rw [hnan] at h
    exact JSNum.noConfusion h
  · rintro ⟨i, h, -, hlt⟩
    have h1 : (step demoEnv .center createNewHighlightState).selectedIndex =
        JSNum.num 1 := by decide
    have h2 : viewItemsLength (step demoEnv .center createNewHighlightState) = 0 := by decide
    rw [h1] at h
    injection h with h
    rw [h2] at hlt
    simp at hlt
    omega

/-- Witness for C1 amended: the playlist-contents view of the demo state. -/
theorem step_nav_amended_witness :
    (demoState.selectedIndex = .num 0 ∧ (0:Int) ≤ 0 ∧
      (0:Int) < (viewItemsLength demoState : Int)) ∧
    (idxInvariant (step demoEnv .next demoState) ∧
      idxInvariant (step demoEnv .prev demoState) ∧
      (step demoEnv .next demoState).selectedIndex =
        .num (((0:Int) + 1) % (viewItemsLength demoState : Int)) ∧
      (step demoEnv .prev demoState).selectedIndex =
        .num (((0:Int) - 1 + (viewItemsLength demoState : Int)) %
          (viewItemsLength demoState : Int))) :=
  ⟨⟨by decide, by decide, by decide⟩,
    step_nav_amended demoEnv demoState 0 (by decide) (by decide) (by decide)⟩
